import Mathlib

/-!
Verification of the DocFusioner-server reliability core: the chat completion
client (`app/services/llm_adapter.py`) and the vector store manager
(`app/vector_store/chroma_manager.py`), shallowly embedded in Lean.

External services (the OpenAI-compatible chat endpoint, the Chroma backing
store, `json.loads`, `hashlib.sha256`, the monotonic clock and random jitter)
are modelled as explicit environments/oracles supplied to each embedded
operation; the control flow of the repository code itself is translated
faithfully.
-/

namespace DocFusioner

/-- A chat message `{role, content}` (`list[dict[str, str]]` in the source). -/
structure Message where
  role : String
  content : String
deriving DecidableEq, Repr

/-! ## Streaming (`_OpenAICompatibleAdapter.chat_stream`) -/

/-- `chunk.choices[0].delta` of a streaming response chunk. -/
structure StreamDelta where
  content : Option String
deriving DecidableEq, Repr

/-- One element of `chunk.choices`. -/
structure StreamChoice where
  delta : StreamDelta
  finish_reason : Option String
deriving DecidableEq, Repr

/-- One chunk produced by the backing streaming endpoint. -/
structure StreamChunk where
  choices : List StreamChoice
deriving DecidableEq, Repr

/-- The tagged event variant yielded by `chat_stream`
(dataclass `StreamEvent` with `type` ∈ {delta, done, error}). -/
inductive StreamEvent where
  | delta (text_delta : String)
  | error (error_message : String)
  | done (finish_reason : String)
deriving DecidableEq, Repr

/-- Behaviour of the backing endpoint for one streaming call: either the
`create(**kwargs)` call raises, or it returns a (finite) stream of chunks
after which iteration either ends normally or raises with a message. -/
inductive StreamNet where
  | createError (msg : String)
  | run (chunks : List StreamChunk) (iterError : Option String)
deriving DecidableEq, Repr

/-- Events yielded for one chunk:
`if chunk.choices and chunk.choices[0].delta.content: yield delta(...)`.
Python truthiness: a `None` or empty-string delta yields nothing. -/
def chunkDeltaEvents (c : StreamChunk) : List StreamEvent :=
  match c.choices with
  | [] => []
  | ch :: _ =>
    match ch.delta.content with
    | some s => if s = "" then [] else [StreamEvent.delta s]
    | none => []

/-- Updated `finish_reason` after one chunk:
`if chunk.choices and chunk.choices[0].finish_reason: finish_reason = ...`. -/
def chunkFinish (c : StreamChunk) (fr : String) : String :=
  match c.choices with
  | [] => fr
  | ch :: _ =>
    match ch.finish_reason with
    | some r => if r = "" then fr else r
    | none => fr

/-- Whether a chunk records a (truthy) finish reason. -/
def recordsFinish (c : StreamChunk) : Bool :=
  match c.choices with
  | [] => false
  | ch :: _ =>
    match ch.finish_reason with
    | some r => r ≠ ""
    | none => false

/-- The `async for chunk in stream` loop body: delta events yielded so far and
the final recorded `finish_reason`, starting from `fr`. -/
def processChunks : List StreamChunk → String → List StreamEvent × String
  | [], fr => ([], fr)
  | c :: rest, fr =>
    let p := processChunks rest (chunkFinish c fr)
    (chunkDeltaEvents c ++ p.1, p.2)

/-- `_OpenAICompatibleAdapter.chat_stream`. The request parameters
(`messages`, `temperature`, `max_tokens`, `response_format`, `deadline`) shape
the outgoing request; the endpoint response is abstracted as `net`. The
`finish_reason` local starts as `"error"`; the `finally` block always yields a
final `done` event. -/
def chat_stream (messages : List Message) (temperature : Option ℚ)
    (max_tokens : Option ℕ) (response_format : Option String)
    (deadline : Option ℚ) (net : StreamNet) : List StreamEvent :=
  match net with
  | .createError msg => [StreamEvent.error msg, StreamEvent.done "error"]
  | .run chunks iterError =>
    let p := processChunks chunks "error"
    match iterError with
    | some msg => p.1 ++ [StreamEvent.error msg, StreamEvent.done p.2]
    | none => p.1 ++ [StreamEvent.done p.2]

/-- Is the event a `done` event? -/
def isDoneEv : StreamEvent → Bool
  | .done _ => true
  | _ => false

/-- Is the event an `error` event? -/
def isErrorEv : StreamEvent → Bool
  | .error _ => true
  | _ => false

/-- Whether the network behaviour raises an exception at some point. -/
def netHasError : StreamNet → Bool
  | .createError _ => true
  | .run _ (some _) => true
  | .run _ none => false

/-- No chunk of the stream carried a truthy finish reason. -/
def noFinishRecorded : StreamNet → Prop
  | .createError _ => True
  | .run chunks _ => ∀ c ∈ chunks, recordsFinish c = false

/-! ## Vector store manager (`ChromaManager.upsert_chunks` / `_upsert_batch`) -/

/-- A value stored in a Chroma metadata dict (int or string). -/
inductive MetaValue where
  | int (n : Int)
  | str (s : String)
deriving DecidableEq, Repr

/-- `ChunkMetadata` dataclass (`app/vector_store/types.py`). -/
structure ChunkMetadata where
  doc_id : Int
  filename : String
  file_type : String
  chunk_index : Int
  doc_hash : String
  sectionName : Option String
deriving DecidableEq, Repr

/-- `ChunkMetadata.to_chroma_dict`: fixed keys plus `section` when not `None`.
(The source field is named `section`, a reserved word in Lean.) -/
def ChunkMetadata.to_chroma_dict (m : ChunkMetadata) : List (String × MetaValue) :=
  [("doc_id", MetaValue.int m.doc_id),
   ("filename", MetaValue.str m.filename),
   ("file_type", MetaValue.str m.file_type),
   ("chunk_index", MetaValue.int m.chunk_index),
   ("doc_hash", MetaValue.str m.doc_hash)] ++
  (match m.sectionName with
   | some s => [("section", MetaValue.str s)]
   | none => [])

/-- `ChunkData` dataclass; the `float` embedding payload is modelled by
rationals (its values are opaque to this layer). -/
structure ChunkData where
  chroma_id : String
  content : String
  embedding : List ℚ
  metadata : ChunkMetadata
deriving DecidableEq, Repr

/-- `UpsertResult` dataclass. -/
structure UpsertResult where
  success_ids : List String := []
  failed_ids : List String := []
deriving DecidableEq, Repr

/-- State threaded through `_upsert_batch`: how many `collection.upsert`
calls happened so far (so a failure oracle can depend on call history) and
the two accumulator lists mutated by the source. -/
structure UpsertSt where
  calls : ℕ
  success_ids : List String
  failed_ids : List String
deriving DecidableEq, Repr

/-- Failure oracle for the backing store: whether the `k`-th
`collection.upsert` call, carrying this batch, raises. -/
def UpsertOracle := ℕ → List ChunkData → Bool

/-- `ChromaManager._upsert_batch`: try to write the whole batch; on an
exception, a singleton batch is recorded as failed, a larger batch is split
at `len(batch) // 2` and both halves retried recursively. An empty batch is
never reached from `upsert_chunks` (top-level batches are non-empty and both
halves of a batch of length ≥ 2 are non-empty); it is mapped to a no-op. -/
def upsert_batch (fails : UpsertOracle) : List ChunkData → UpsertSt → UpsertSt
  | batch, st =>
    if fails st.calls batch = false then
      ⟨st.calls + 1, st.success_ids ++ batch.map ChunkData.chroma_id, st.failed_ids⟩
    else
      match h : batch with
      | [] => ⟨st.calls + 1, st.success_ids, st.failed_ids⟩
      | [c] => ⟨st.calls + 1, st.success_ids, st.failed_ids ++ [c.chroma_id]⟩
      | _ :: _ :: _ =>
        let mid := batch.length / 2
        let st1 := upsert_batch fails (batch.take mid) ⟨st.calls + 1, st.success_ids, st.failed_ids⟩
        upsert_batch fails (batch.drop mid) st1
termination_by batch => batch.length
decreasing_by
  · subst h
    simp only [List.length_take, List.length_cons]
    omega
  · subst h
    simp only [List.length_drop, List.length_cons]
    omega

/-- `chunks[i : i + batch_size]` slices taken by the `range(0, len, bs)` loop.
(`bs = 0` would raise `ValueError` in Python; it is mapped to no batches.) -/
def splitBatches (bs : ℕ) (l : List ChunkData) : List (List ChunkData) :=
  if _h : l = [] ∨ bs = 0 then []
  else l.take bs :: splitBatches bs (l.drop bs)
termination_by l.length
decreasing_by
  simp only [List.length_drop]
  rcases not_or.mp _h with ⟨hl, hbs⟩
  have : 0 < l.length := List.length_pos.mpr hl
  omega

/-- `ChromaManager.upsert_chunks`: empty input short-circuits; otherwise each
batch of `batch_size` chunks is attempted independently via `_upsert_batch`. -/
def upsert_chunks (fails : UpsertOracle) (chunks : List ChunkData)
    (batch_size : ℕ) : UpsertResult :=
  if chunks = [] then {}
  else
    let final := (splitBatches batch_size chunks).foldl
      (fun st batch => upsert_batch fails batch st) ⟨0, [], []⟩
    ⟨final.success_ids, final.failed_ids⟩

/-! ## Retry loop (`_OpenAICompatibleAdapter._call_with_retry`) -/

/-- Outcome of one `self._client.chat.completions.create(**kwargs)` attempt:
a response (whose `choices[0].message.content` may be `None`), an
`APIStatusError` with a status code, or an
`APIConnectionError`/`APITimeoutError`. -/
inductive AttemptOutcome where
  | ok (content : Option String)
  | status (code : ℕ)
  | connFail
deriving DecidableEq, Repr

/-- Environment of one `_call_with_retry` invocation: the outcome of each
network attempt, the monotonic clock value sampled at the top of each loop
iteration, and the `random.uniform(0, 1)` jitter drawn at each backoff. -/
structure RetryEnv where
  attempt_result : ℕ → AttemptOutcome
  check_time : ℕ → ℚ
  jitter : ℕ → ℚ

/-- Which `LLMConnectionError` raise site produced the error. -/
inductive ConnKind where
  | apiError (code : ℕ)
  | transport
  | retriesExhausted
deriving DecidableEq, Repr

/-- The typed errors `_call_with_retry` can raise (`app/exceptions.py`). -/
inductive CallErr where
  | auth (provider model : String)
  | modelNotFound (provider model : String)
  | rateLimit (provider : String) (retry_count : ℕ)
  | conn (kind : ConnKind) (provider base_url : String)
deriving DecidableEq, Repr

/-- Result of `_call_with_retry` plus its observable trace: how many network
attempts were made and which backoff sleeps were performed, in order. -/
structure RetryOutcome where
  result : Except CallErr String
  attempts : ℕ
  sleeps : List ℚ
deriving Repr

/-- `max_retries = 2`. -/
def max_retries : ℕ := 2

/-- The deadline guard value:
`remaining = deadline - (time.monotonic() - start); remaining < 5`. -/
def deadlineLow (deadline : Option ℚ) (t start : ℚ) : Bool :=
  match deadline with
  | some d => decide (d - (t - start) < 5)
  | none => false

/-- The `for attempt in range(max_retries + 1)` loop of `_call_with_retry`,
entered at iteration `attempt` with `calls` network attempts and `sleeps`
backoffs already performed. The deadline guard computes
`remaining = deadline - (time.monotonic() - start)` and breaks (falling
through to the final "retries exhausted" raise) only when `remaining < 5`
and `attempt > 0`. -/
def retryGo (env : RetryEnv) (deadline : Option ℚ) (start : ℚ)
    (provider model base_url : String) :
    (attempt : ℕ) → (calls : ℕ) → (sleeps : List ℚ) → RetryOutcome
  | attempt, calls, sleeps =>
    if _h : max_retries + 1 ≤ attempt then
      ⟨.error (.conn .retriesExhausted provider base_url), calls, sleeps⟩
    else if deadlineLow deadline (env.check_time attempt) start ∧ 0 < attempt then
      ⟨.error (.conn .retriesExhausted provider base_url), calls, sleeps⟩
    else
      match env.attempt_result attempt with
      | .ok content => ⟨.ok (content.getD ""), calls + 1, sleeps⟩
      | .status code =>
        if code = 401 then
          ⟨.error (.auth provider model), calls + 1, sleeps⟩
        else if code = 404 then
          ⟨.error (.modelNotFound provider model), calls + 1, sleeps⟩
        else if (code = 429 ∨ code = 503) ∧ attempt < max_retries then
          retryGo env deadline start provider model base_url (attempt + 1)
            (calls + 1) (sleeps ++ [min ((2 : ℚ) ^ attempt + env.jitter attempt) 3])
        else if code = 429 ∨ code = 503 then
          ⟨.error (.rateLimit provider attempt), calls + 1, sleeps⟩
        else
          ⟨.error (.conn (.apiError code) provider base_url), calls + 1, sleeps⟩
      | .connFail =>
        if attempt < 1 then
          retryGo env deadline start provider model base_url (attempt + 1)
            (calls + 1) (sleeps ++ [1])
        else
          ⟨.error (.conn .transport provider base_url), calls + 1, sleeps⟩
termination_by attempt => max_retries + 1 - attempt

/-- `_OpenAICompatibleAdapter._call_with_retry`. -/
def call_with_retry (env : RetryEnv) (deadline : Option ℚ) (start : ℚ)
    (provider model base_url : String) : RetryOutcome :=
  retryGo env deadline start provider model base_url 0 0 []

/-! ## JSON contract enforcement (`_OpenAICompatibleAdapter._ensure_json`) -/

/-- JSON values, as produced by `json.loads`. -/
inductive JValue where
  | null
  | bool (b : Bool)
  | num (q : ℚ)
  | str (s : String)
  | arr (elems : List JValue)
  | obj (fields : List (String × JValue))

/-- The JSON schema descriptor consumed by `_ensure_json`: its `required`
list (default `[]`) and its declared property names (default none). A falsy
(`None` or empty-dict) `json_schema` is modelled as `Option.none` at use
sites. -/
structure JsonSchema where
  required : List String
  properties : List String
deriving DecidableEq, Repr

/-- `set(json_schema.get("required", []) or json_schema.get("properties", {}).keys())`:
Python `or` falls back to the property names when `required` is falsy
(absent or empty). The set is represented by the underlying list; all
consumers use membership / dedup-then-sort, matching set semantics. -/
def expectedFields (s : JsonSchema) : List String :=
  if s.required = [] then s.properties else s.required

/-- `a.issubset(b)` on string sets represented as lists. -/
def subsetB (a b : List String) : Bool :=
  a.all fun k => b.contains k

/-- The keys of a parsed JSON object (`parsed.keys()`). -/
def keyList (fields : List (String × JValue)) : List String :=
  fields.map Prod.fst

/-- Remove duplicates from a string list (the `set(...)` construction; the
result is sorted afterwards, so which duplicate survives is immaterial). -/
def dedupStrings : List String → List String
  | [] => []
  | s :: rest => if rest.contains s then dedupStrings rest else s :: dedupStrings rest

/-- Lexicographic code-point comparison on character lists (Python's string
ordering, used by `sorted`). -/
def charListLe : List Char → List Char → Bool
  | [], _ => true
  | _ :: _, [] => false
  | c :: cs, d :: ds =>
    if c.toNat < d.toNat then true
    else if d.toNat < c.toNat then false
    else charListLe cs ds

/-- `a <= b` on strings by code points. -/
def strLe (a b : String) : Bool := charListLe a.data b.data

/-- Insert a string into an ascending list (helper for `sorted`). -/
def insertSorted (s : String) : List String → List String
  | [] => [s]
  | t :: ts => if strLe s t then s :: t :: ts else t :: insertSorted s ts

/-- Python `sorted` on a set of strings: ascending order, duplicates already
removed by the caller. -/
def sortStrings (l : List String) : List String :=
  l.foldr insertSorted []

/-- Python `repr` of a list of strings, as interpolated by the f-string:
`['a', 'b']`. -/
def pyStrList (l : List String) : String :=
  "[" ++ String.intercalate ", " (l.map fun s => "\x27" ++ s ++ "\x27") ++ "]"

/-- The corrective user message of the invalid-JSON repair. -/
def jsonFixPrompt : String :=
  "上面的输出不是合法 JSON。请只输出合法 JSON，不要任何解释。"

/-- The corrective user message of the schema repair, interpolating
`sorted(expected)`. -/
def schemaFixPrompt (sortedExpected : List String) : String :=
  "输出缺少必要字段。需要包含: " ++ pyStrList sortedExpected ++ "。请重新输出完整 JSON。"

/-- Errors `_ensure_json` can raise: a propagated `_call_with_retry` error,
or an `LLMOutputParseError{reason, provider, model, raw_output}`. -/
inductive EnsureErr where
  | callFailed (e : CallErr)
  | parseFailed (reason provider model raw_output : String)
deriving DecidableEq, Repr

/-- Environment of `_ensure_json`: `json.loads` (abstract parser; `none`
models a `JSONDecodeError`) and the result of a nested
`self._call_with_retry(retry_kwargs, ...)` invocation, keyed by the message
list it is sent. -/
structure JsonEnv where
  parse : String → Option JValue
  repair : List Message → Except CallErr String

/-- Whether the schema branch of `_ensure_json` must issue a repair call:
`json_schema and isinstance(parsed, dict)` and
`expected and not expected.issubset(actual)`. -/
def schemaRetryNeeded (json_schema : Option JsonSchema) (parsed : JValue) : Bool :=
  match json_schema, parsed with
  | some sch, .obj fields =>
    !(expectedFields sch).isEmpty && !subsetB (expectedFields sch) (keyList fields)
  | _, _ => false

/-- The schema-validation half of `_ensure_json` (lines 311–341), applied to
an already-parsed value; returns the result together with the repair
requests issued so far (`calls` were issued by the parse half). -/
def ensureSchema (env : JsonEnv) (provider model : String)
    (messages : List Message) (json_schema : Option JsonSchema) (raw : String)
    (parsed : JValue) (calls : List (List Message)) :
    Except EnsureErr String × List (List Message) :=
  match json_schema, parsed with
  | some sch, .obj fields =>
    if !(expectedFields sch).isEmpty && !subsetB (expectedFields sch) (keyList fields) then
      let rm := messages ++
        [⟨"assistant", raw⟩,
         ⟨"user", schemaFixPrompt (sortStrings (dedupStrings (expectedFields sch)))⟩]
      match env.repair rm with
      | .error e => (.error (.callFailed e), calls ++ [rm])
      | .ok retry_raw =>
        match env.parse retry_raw with
        | some (.obj f2) =>
          if subsetB (expectedFields sch) (keyList f2) then
            (.ok retry_raw, calls ++ [rm])
          else
            (.error (.parseFailed "schema_mismatch" provider model (retry_raw.take 500)),
             calls ++ [rm])
        | _ =>
          (.error (.parseFailed "schema_mismatch" provider model (retry_raw.take 500)),
           calls ++ [rm])
    else (.ok raw, calls)
  | _, _ => (.ok raw, calls)

/-- `_OpenAICompatibleAdapter._ensure_json`: parse `raw`; on a decode error
issue one repair call (conversation plus prior assistant output plus the
corrective instruction) and parse again, raising
`OutputParseError{json_invalid, raw[:500]}` if still invalid; then run the
schema check. The second component lists the repair requests issued. -/
def ensure_json (env : JsonEnv) (provider model : String)
    (messages : List Message) (json_schema : Option JsonSchema) (raw : String) :
    Except EnsureErr String × List (List Message) :=
  match env.parse raw with
  | some parsed => ensureSchema env provider model messages json_schema raw parsed []
  | none =>
    let rm := messages ++ [⟨"assistant", raw⟩, ⟨"user", jsonFixPrompt⟩]
    match env.repair rm with
    | .error e => (.error (.callFailed e), [rm])
    | .ok retry_raw =>
      match env.parse retry_raw with
      | none =>
        (.error (.parseFailed "json_invalid" provider model (retry_raw.take 500)), [rm])
      | some parsed2 =>
        ensureSchema env provider model messages json_schema retry_raw parsed2 [rm]

/-! ## Client cache (`_cache_key`, `_get_or_create_openai_client`) -/

/-- An `AsyncOpenAI(base_url=..., api_key=...)` handle, identified by its
constructor arguments. -/
structure OpenAIClient where
  base_url : String
  api_key : String
deriving DecidableEq, Repr

/-- `_CLIENT_TTL = 600`. -/
def CLIENT_TTL : ℚ := 600

/-- `_cache_key`: `f"{provider}|{base_url}|{key_hash}"` where `key_hash` is
the first 16 hex characters of the credential's SHA-256 digest; `h` models
`hashlib.sha256(...).hexdigest()` (one-way hash, abstract here). -/
def cache_key (h : String → String) (provider base_url api_key : String) : String :=
  provider ++ "|" ++ base_url ++ "|" ++ (h api_key).take 16

/-- The module-level `_client_cache` dict. -/
def ClientCache := String → Option (OpenAIClient × ℚ)

/-- `_get_or_create_openai_client`: return the cached client when the entry
is younger than the TTL; otherwise construct a fresh client and store it
under the fingerprint key, overwriting any stale entry. Returns the client
and the updated cache; `now` is `time.monotonic()`. -/
def get_or_create_openai_client (h : String → String) (cache : ClientCache)
    (provider base_url api_key : String) (now : ℚ) :
    OpenAIClient × ClientCache :=
  let key := cache_key h provider base_url api_key
  match cache key with
  | some (client, created_at) =>
    if now - created_at < CLIENT_TTL then (client, cache)
    else
      let c : OpenAIClient := ⟨base_url, api_key⟩
      (c, fun k => if k = key then some (c, now) else cache k)
  | none =>
    let c : OpenAIClient := ⟨base_url, api_key⟩
    (c, fun k => if k = key then some (c, now) else cache k)

/-! ## Query filter (`ChromaManager.query`) -/

/-- A value of the `where` filter dict passed to `collection.query`: the
`doc_id` equality filter, the `{"$in": doc_ids}` set filter, or a pass-through
`extra_where` value (opaque to this layer). -/
inductive WhereVal where
  | eqInt (n : Int)
  | inList (ns : List Int)
  | extra (v : String)
deriving DecidableEq, Repr

/-- `_WHERE_WHITELIST = {"file_type", "filename", "section"}`. -/
def WHERE_WHITELIST : List String := ["file_type", "filename", "section"]

/-- The filter-construction phase of `ChromaManager.query`: `doc_ids` (when
present) wins over `doc_id`; `extra_where` keys outside the whitelist are
dropped; an empty dict becomes `None` (`where if where else None`). -/
def query_where (doc_id : Option Int) (doc_ids : Option (List Int))
    (extra_where : List (String × String)) : Option (List (String × WhereVal)) :=
  let base : List (String × WhereVal) :=
    match doc_ids with
    | some ns => [("doc_id", WhereVal.inList ns)]
    | none =>
      match doc_id with
      | some n => [("doc_id", WhereVal.eqInt n)]
      | none => []
  let w := base ++ extra_where.filterMap
    (fun kv => if WHERE_WHITELIST.contains kv.1 then some (kv.1, WhereVal.extra kv.2) else none)
  if w.isEmpty then none else some w

/-! ## Concrete instances used by witnesses -/

/-- A concrete chunk list with pairwise-distinct ids. -/
def chunksW : List ChunkData :=
  [⟨"a", "x", [1], ⟨1, "f", "t", 0, "h", none⟩⟩,
   ⟨"b", "y", [1], ⟨1, "f", "t", 1, "h", none⟩⟩,
   ⟨"c", "z", [2], ⟨2, "g", "t", 0, "h2", some "s"⟩⟩]

/-- A concrete failure oracle: every batch containing id `"b"` fails. -/
def failsW : UpsertOracle := fun _ b => b.any fun c => c.chroma_id == "b"

/-! ## Helper lemmas -/

lemma getLast?_append_singleton {α : Type} (l : List α) (a : α) :
    (l ++ [a]).getLast? = some a := by
  induction l with
  | nil => rfl
  | cons x xs ih =>
    rw [List.cons_append, List.getLast?_cons, ih]
    simp

lemma chunkDeltaEvents_only_delta (c : StreamChunk) :
    ∀ e ∈ chunkDeltaEvents c, isDoneEv e = false ∧ isErrorEv e = false := by
  intro e he
  unfold chunkDeltaEvents at he
  rcases c with ⟨choices⟩
  cases choices with
  | nil => simp at he
  | cons ch rest =>
    cases h : ch.delta.content with
    | none => simp [h] at he
    | some s =>
      by_cases hs : s = ""
      · simp [h, hs] at he
      · simp [h, hs] at he
        subst he
        exact ⟨rfl, rfl⟩

lemma processChunks_countP_done (chunks : List StreamChunk) (fr : String) :
    (processChunks chunks fr).1.countP isDoneEv = 0 := by
  induction chunks generalizing fr with
  | nil => rfl
  | cons c rest ih =>
    rw [processChunks]
    simp only [List.countP_append, ih, Nat.add_zero]
    rw [List.countP_eq_zero]
    intro e he
    simpa using (chunkDeltaEvents_only_delta c e he).1

lemma processChunks_countP_error (chunks : List StreamChunk) (fr : String) :
    (processChunks chunks fr).1.countP isErrorEv = 0 := by
  induction chunks generalizing fr with
  | nil => rfl
  | cons c rest ih =>
    rw [processChunks]
    simp only [List.countP_append, ih, Nat.add_zero]
    rw [List.countP_eq_zero]
    intro e he
    simpa using (chunkDeltaEvents_only_delta c e he).2

lemma chunkFinish_of_not_records (c : StreamChunk) (fr : String)
    (h : recordsFinish c = false) : chunkFinish c fr = fr := by
  unfold recordsFinish at h
  unfold chunkFinish
  rcases c with ⟨choices⟩
  cases choices with
  | nil => rfl
  | cons ch rest =>
    cases hr : ch.finish_reason with
    | none => simp [hr]
    | some r =>
      simp only [hr] at h ⊢
      simp only [decide_eq_false_iff_not, not_not] at h
      simp [h]

lemma processChunks_finish_of_none (chunks : List StreamChunk) (fr : String)
    (h : ∀ c ∈ chunks, recordsFinish c = false) :
    (processChunks chunks fr).2 = fr := by
  induction chunks generalizing fr with
  | nil => rfl
  | cons c rest ih =>
    rw [processChunks]
    have hc := chunkFinish_of_not_records c fr (h c (by simp))
    simp only [hc]
    exact ih fr fun c' hc' => h c' (by simp [hc'])

/-! ## C1 / C10: streaming -/

/-- C1: every `chat_stream` call produces a finite event sequence containing
exactly one `done` event, which is last; an exception (at stream creation or
during iteration) produces exactly one `error` event before it, no exception
escapes; and when a failure occurs with no finish reason recorded, the `done`
event carries finish_reason `"error"`. -/
theorem chat_stream_terminal_events (messages : List Message)
    (temperature : Option ℚ) (max_tokens : Option ℕ)
    (response_format : Option String) (deadline : Option ℚ) (net : StreamNet) :
    ((chat_stream messages temperature max_tokens response_format deadline net).countP
        isDoneEv = 1)
    ∧ (∃ fr, (chat_stream messages temperature max_tokens response_format deadline
        net).getLast? = some (.done fr))
    ∧ ((chat_stream messages temperature max_tokens response_format deadline
        net).countP isErrorEv = if netHasError net then 1 else 0)
    ∧ (netHasError net = true → noFinishRecorded net →
        (chat_stream messages temperature max_tokens response_format deadline
          net).getLast? = some (.done "error")) := by
  cases net with
  | createError msg =>
    refine ⟨rfl, ⟨"error", rfl⟩, rfl, fun _ _ => rfl⟩
  | run chunks iterError =>
    cases iterError with
    | none =>
      refine ⟨?_, ⟨(processChunks chunks "error").2, ?_⟩, ?_, ?_⟩
      · simp only [chat_stream, List.countP_append, processChunks_countP_done]
        rfl
      · exact getLast?_append_singleton _ _
      · simp [chat_stream, netHasError, List.countP_append,
          processChunks_countP_error, isErrorEv]
      · intro h
        simp [netHasError] at h
    | some msg =>
      refine ⟨?_, ⟨(processChunks chunks "error").2, ?_⟩, ?_, ?_⟩
      · simp only [chat_stream, List.countP_append, processChunks_countP_done]
        rfl
      · show (_ ++ [StreamEvent.error msg, StreamEvent.done _]).getLast? = _
        rw [show (processChunks chunks "error").1 ++
              [StreamEvent.error msg, StreamEvent.done (processChunks chunks "error").2]
            = ((processChunks chunks "error").1 ++ [StreamEvent.error msg]) ++
              [StreamEvent.done (processChunks chunks "error").2] by simp]
        exact getLast?_append_singleton _ _
      · simp [chat_stream, netHasError, List.countP_append,
          processChunks_countP_error, isErrorEv]
      · intro _ hrec
        have h2 : (processChunks chunks "error").2 = "error" :=
          processChunks_finish_of_none chunks "error" hrec
        show (_ ++ [StreamEvent.error msg, StreamEvent.done _]).getLast? = _
        rw [show (processChunks chunks "error").1 ++
              [StreamEvent.error msg, StreamEvent.done (processChunks chunks "error").2]
            = ((processChunks chunks "error").1 ++ [StreamEvent.error msg]) ++
              [StreamEvent.done (processChunks chunks "error").2] by simp]
        rw [getLast?_append_singleton, h2]

/-- C1 witness: at a concrete failing stream, the hypotheses of the final
conjunct hold and the stream ends in `done "error"`. -/
theorem chat_stream_terminal_events_witness :
    netHasError (.createError "boom") = true
    ∧ noFinishRecorded (.createError "boom")
    ∧ (chat_stream [] none none none (some 1) (.createError "boom")).getLast?
        = some (.done "error") :=
  ⟨rfl, trivial,
    (chat_stream_terminal_events [] none none none (some 1)
      (.createError "boom")).2.2.2 rfl trivial⟩

/-- C10: `chat_stream` accepts a `deadline` parameter but its behaviour is
completely independent of it: with identical messages, options and network
behaviour, any two deadline values (including none) produce identical event
sequences. -/
theorem chat_stream_ignores_deadline (messages : List Message)
    (temperature : Option ℚ) (max_tokens : Option ℕ)
    (response_format : Option String) (d1 d2 : Option ℚ) (net : StreamNet) :
    chat_stream messages temperature max_tokens response_format d1 net
      = chat_stream messages temperature max_tokens response_format d2 net := rfl

/-! ## C2: upsert partition invariant -/

lemma upsert_batch_ids (fails : UpsertOracle) :
    ∀ (n : ℕ) (batch : List ChunkData) (st : UpsertSt), batch.length ≤ n →
    ((upsert_batch fails batch st).success_ids : Multiset String)
      + ((upsert_batch fails batch st).failed_ids : Multiset String)
      = (st.success_ids : Multiset String) + (st.failed_ids : Multiset String)
        + (batch.map ChunkData.chroma_id : Multiset String) := by
  intro n
  induction n with
  | zero =>
    intro batch st h
    have hb : batch = [] := List.length_eq_zero.mp (Nat.le_zero.mp h)
    subst hb
    rw [upsert_batch.eq_def]
    dsimp only
    by_cases hf : fails st.calls [] = false
    · simp [hf]
    · simp [hf]
  | succ n ih =>
    intro batch st h
    rw [upsert_batch.eq_def]
    dsimp only
    by_cases hf : fails st.calls batch = false
    · rw [if_pos hf]
      simp only [← Multiset.coe_add]
      abel
    · rw [if_neg hf]
      match batch, h with
      | [], h => simp
      | [c], h => simp [← Multiset.coe_add]; abel
      | c1 :: c2 :: rest, h =>
        dsimp only
        have hlen : (c1 :: c2 :: rest).length = rest.length + 2 := by simp
        have htake : (List.take ((c1 :: c2 :: rest).length / 2) (c1 :: c2 :: rest)).length ≤ n := by
          simp only [List.length_take, hlen] at *
          omega
        have hdrop : (List.drop ((c1 :: c2 :: rest).length / 2) (c1 :: c2 :: rest)).length ≤ n := by
          simp only [List.length_drop, hlen] at *
          omega
        rw [ih _ _ hdrop, ih _ _ htake, add_assoc]
        congr 1
        rw [Multiset.coe_add, ← List.map_append, List.take_append_drop]

lemma foldl_upsert_ids (fails : UpsertOracle) (batches : List (List ChunkData)) :
    ∀ st : UpsertSt,
    ((batches.foldl (fun st batch => upsert_batch fails batch st) st).success_ids
        : Multiset String)
      + ((batches.foldl (fun st batch => upsert_batch fails batch st) st).failed_ids
        : Multiset String)
      = (st.success_ids : Multiset String) + (st.failed_ids : Multiset String)
        + (batches.flatten.map ChunkData.chroma_id : Multiset String) := by
  induction batches with
  | nil => intro st; simp
  | cons b bs ih =>
    intro st
    rw [List.foldl_cons, ih, upsert_batch_ids fails b.length b st le_rfl]
    rw [List.flatten_cons, List.map_append, ← Multiset.coe_add]
    abel

lemma splitBatches_join (bs : ℕ) (hbs : bs ≠ 0) :
    ∀ (n : ℕ) (l : List ChunkData), l.length ≤ n → (splitBatches bs l).flatten = l := by
  intro n
  induction n with
  | zero =>
    intro l h
    have hl : l = [] := List.length_eq_zero.mp (Nat.le_zero.mp h)
    subst hl
    rw [splitBatches.eq_def]
    simp
  | succ n ih =>
    intro l h
    rw [splitBatches.eq_def]
    by_cases hl : l = []
    · simp [hl]
    · rw [dif_neg (by simp [hl, hbs])]
      have hd : (l.drop bs).length ≤ n := by
        have : 0 < l.length := List.length_pos.mpr hl
        simp only [List.length_drop]
        omega
      rw [List.flatten_cons, ih _ hd, List.take_append_drop]

/-- C2: for any input chunks with pairwise-distinct `chroma_id`s, any
failure pattern of the backing store and any positive batch size,
`upsert_chunks` partitions the input id set: `success_ids ++ failed_ids` is
a permutation of the input ids, both lists are duplicate-free and no id is
in both, however often the binary batch-splitting recursion subdivided. -/
theorem upsert_chunks_partition (fails : UpsertOracle) (chunks : List ChunkData)
    (batch_size : ℕ) (hbs : batch_size ≠ 0)
    (hnd : (chunks.map ChunkData.chroma_id).Nodup) :
    ((upsert_chunks fails chunks batch_size).success_ids ++
        (upsert_chunks fails chunks batch_size).failed_ids).Perm
      (chunks.map ChunkData.chroma_id)
    ∧ (upsert_chunks fails chunks batch_size).success_ids.Nodup
    ∧ (upsert_chunks fails chunks batch_size).failed_ids.Nodup
    ∧ ∀ i ∈ (upsert_chunks fails chunks batch_size).success_ids,
        i ∉ (upsert_chunks fails chunks batch_size).failed_ids := by
  have hperm : ((upsert_chunks fails chunks batch_size).success_ids ++
      (upsert_chunks fails chunks batch_size).failed_ids).Perm
        (chunks.map ChunkData.chroma_id) := by
    unfold upsert_chunks
    by_cases hc : chunks = []
    · subst hc
      simp
    · rw [if_neg hc]
      dsimp only
      have hm := foldl_upsert_ids fails (splitBatches batch_size chunks) ⟨0, [], []⟩
      rw [splitBatches_join batch_size hbs chunks.length chunks le_rfl] at hm
      rw [← Multiset.coe_eq_coe, ← Multiset.coe_add, hm]
      simp
  have hnd2 : ((upsert_chunks fails chunks batch_size).success_ids ++
      (upsert_chunks fails chunks batch_size).failed_ids).Nodup :=
    hperm.symm.nodup hnd
  rcases List.nodup_append.mp hnd2 with ⟨h1, h2, hdisj⟩
  exact ⟨hperm, h1, h2, fun i hi hif => hdisj hi hif⟩

/-- C2 witness: at a concrete input (three distinct ids, id "b" poisoned,
batch size 2), the hypotheses hold and the partition invariant follows. -/
theorem upsert_chunks_partition_witness :
    (2 : ℕ) ≠ 0 ∧ (chunksW.map ChunkData.chroma_id).Nodup ∧
    (((upsert_chunks failsW chunksW 2).success_ids ++
        (upsert_chunks failsW chunksW 2).failed_ids).Perm
      (chunksW.map ChunkData.chroma_id)
    ∧ (upsert_chunks failsW chunksW 2).success_ids.Nodup
    ∧ (upsert_chunks failsW chunksW 2).failed_ids.Nodup
    ∧ ∀ i ∈ (upsert_chunks failsW chunksW 2).success_ids,
        i ∉ (upsert_chunks failsW chunksW 2).failed_ids) :=
  ⟨by decide, by decide,
    upsert_chunks_partition failsW chunksW 2 (by decide) (by decide)⟩

/-! ## C3 / C6 / C7: retry loop -/

/-- C3: with no deadline and every attempt failing with HTTP 429 or 503,
`_call_with_retry` makes exactly 3 network attempts (1 initial + 2 retries),
sleeps `min(2^attempt + jitter, 3)` seconds before each retry, and raises
`LLMRateLimitError{provider, retry_count = 2}`. -/
theorem call_with_retry_rate_limited (env : RetryEnv) (start : ℚ)
    (provider model base_url : String)
    (h0 : env.attempt_result 0 = .status 429 ∨ env.attempt_result 0 = .status 503)
    (h1 : env.attempt_result 1 = .status 429 ∨ env.attempt_result 1 = .status 503)
    (h2 : env.attempt_result 2 = .status 429 ∨ env.attempt_result 2 = .status 503) :
    call_with_retry env none start provider model base_url =
      ⟨.error (.rateLimit provider 2), 3,
        [min ((2 : ℚ) ^ (0 : ℕ) + env.jitter 0) 3,
         min ((2 : ℚ) ^ (1 : ℕ) + env.jitter 1) 3]⟩ := by
  rcases h0 with h0 | h0 <;> rcases h1 with h1 | h1 <;> rcases h2 with h2 | h2 <;>
    simp [call_with_retry, retryGo, deadlineLow, max_retries, h0, h1, h2]

/-- C3 witness: every attempt returns 429, zero jitter. -/
theorem call_with_retry_rate_limited_witness :
    (RetryEnv.mk (fun _ => .status 429) (fun _ => 0) (fun _ => 0)).attempt_result 0
        = .status 429
    ∧ call_with_retry ⟨fun _ => .status 429, fun _ => 0, fun _ => 0⟩ none 0 "p" "m" "b" =
      ⟨.error (.rateLimit "p" 2), 3,
        [min ((2 : ℚ) ^ (0 : ℕ) + 0) 3, min ((2 : ℚ) ^ (1 : ℕ) + 0) 3]⟩ :=
  ⟨rfl, call_with_retry_rate_limited ⟨fun _ => .status 429, fun _ => 0, fun _ => 0⟩
    0 "p" "m" "b" (Or.inl rfl) (Or.inl rfl) (Or.inl rfl)⟩

/-- C6: a first attempt failing with HTTP 401 (resp. 404) causes exactly one
network attempt, no backoff sleep, and the terminal `LLMAuthError{provider,
model}` (resp. `LLMModelNotFoundError{provider, model}`), for any deadline. -/
theorem call_with_retry_terminal_401_404 (env : RetryEnv) (deadline : Option ℚ)
    (start : ℚ) (provider model base_url : String) :
    (env.attempt_result 0 = .status 401 →
      call_with_retry env deadline start provider model base_url =
        ⟨.error (.auth provider model), 1, []⟩)
    ∧ (env.attempt_result 0 = .status 404 →
      call_with_retry env deadline start provider model base_url =
        ⟨.error (.modelNotFound provider model), 1, []⟩) := by
  constructor <;> intro h <;>
    simp [call_with_retry, retryGo, deadlineLow, max_retries, h]

/-- C6 witness at a 401 first attempt with a deadline present. -/
theorem call_with_retry_terminal_401_404_witness :
    (RetryEnv.mk (fun _ => .status 401) (fun _ => 0) (fun _ => 0)).attempt_result 0
        = .status 401
    ∧ call_with_retry ⟨fun _ => .status 401, fun _ => 0, fun _ => 0⟩ (some 1) 0
        "p" "m" "b" = ⟨.error (.auth "p" "m"), 1, []⟩ :=
  ⟨rfl, (call_with_retry_terminal_401_404 ⟨fun _ => .status 401, fun _ => 0, fun _ => 0⟩
    (some 1) 0 "p" "m" "b").1 rfl⟩

lemma retryGo_calls_le (env : RetryEnv) (deadline : Option ℚ) (start : ℚ)
    (provider model base_url : String) :
    ∀ (attempt calls : ℕ) (sleeps : List ℚ),
      calls ≤ (retryGo env deadline start provider model base_url attempt calls sleeps).attempts := by
  intro attempt calls sleeps
  induction attempt, calls, sleeps using retryGo.induct env deadline start provider model base_url
  all_goals rw [retryGo]
  all_goals try simp_all
  all_goals try split_ifs
  all_goals try simp_all
  all_goals omega

/-- C7 counterexample: with the deadline read as an absolute monotonic clock
value (spec's reading), `start = 10`, `deadline = 12` and the clock at the
pre-retry check reading `11`, less than 5 seconds remain to the deadline
(`12 - 11 = 1 < 5`), yet the code performs two further network attempts
(3 in total) and raises `RateLimitError`, not a connection-class error:
the code in fact compares `deadline - (now - start)`, treating the value as
a relative budget from the call's start. -/
theorem call_with_retry_deadline_cex :
    ((12 : ℚ) - 11 < 5)
    ∧ (call_with_retry ⟨fun _ => .status 429, fun _ => 11, fun _ => 0⟩ (some 12) 10
        "p" "m" "b").attempts = 3
    ∧ (call_with_retry ⟨fun _ => .status 429, fun _ => 11, fun _ => 0⟩ (some 12) 10
        "p" "m" "b").result = .error (.rateLimit "p" 2) := by
  have h : call_with_retry ⟨fun _ => .status 429, fun _ => 11, fun _ => 0⟩ (some 12) 10
      "p" "m" "b" = ⟨.error (.rateLimit "p" 2), 3, [1, 2]⟩ := by
    unfold call_with_retry
    rw [retryGo]
    norm_num [deadlineLow, max_retries]
    rw [retryGo]
    norm_num [deadlineLow, max_retries]
    rw [retryGo]
    norm_num [deadlineLow, max_retries]
  exact ⟨by norm_num, by rw [h], by rw [h]⟩

/-- C7 amended: the first attempt is always performed regardless of the
deadline, and before each retry (never before the first) the loop checks the
remaining budget computed as `deadline - (elapsed since call start)`; when it
is below 5 seconds, no further network attempt occurs and a connection-class
error (`LLMConnectionError`, retries-exhausted raise site) is raised at once.
With `max_retries = 2` the loop has exactly two retry boundaries — the checks
before attempt 1 and before attempt 2 (no branch continues past attempt 2) —
and both are covered: the second and third conjuncts give the cut-off at the
first and at the second boundary respectively, the latter under the
hypotheses that make the loop reach it (a retryable first attempt, a budget
still at or above 5 seconds at the first check, and a 429/503 second attempt,
the only outcome retryable at attempt 1). -/
theorem call_with_retry_deadline_budget (env : RetryEnv) (d start : ℚ)
    (provider model base_url : String) :
    1 ≤ (call_with_retry env (some d) start provider model base_url).attempts
    ∧ ((env.attempt_result 0 = .status 429 ∨ env.attempt_result 0 = .status 503
          ∨ env.attempt_result 0 = .connFail) →
        d - (env.check_time 1 - start) < 5 →
        (call_with_retry env (some d) start provider model base_url).attempts = 1
        ∧ (call_with_retry env (some d) start provider model base_url).result
            = .error (.conn .retriesExhausted provider base_url))
    ∧ ((env.attempt_result 0 = .status 429 ∨ env.attempt_result 0 = .status 503
          ∨ env.attempt_result 0 = .connFail) →
        ¬(d - (env.check_time 1 - start) < 5) →
        (env.attempt_result 1 = .status 429 ∨ env.attempt_result 1 = .status 503) →
        d - (env.check_time 2 - start) < 5 →
        (call_with_retry env (some d) start provider model base_url).attempts = 2
        ∧ (call_with_retry env (some d) start provider model base_url).result
            = .error (.conn .retriesExhausted provider base_url)) := by
  refine ⟨?_, ?_, ?_⟩
  · unfold call_with_retry
    rw [retryGo]
    cases hres : env.attempt_result 0 <;>
      · try simp_all
        try split_ifs
        all_goals try simp_all
        all_goals exact le_trans (by omega) (retryGo_calls_le env (some d) start
          provider model base_url _ _ _)
  · intro h hb
    rcases h with h | h | h <;>
      constructor <;>
      simp [call_with_retry, retryGo, deadlineLow, max_retries, h, hb]
  · intro h0 hge h1 hlt
    rcases h0 with h0 | h0 | h0 <;> rcases h1 with h1 | h1 <;>
      constructor <;>
      simp [call_with_retry, retryGo, deadlineLow, max_retries, h0, h1, hge, hlt]

/-- C7 amended witness, exercising both retry boundaries. First boundary:
all attempts 429, budget `5.5 - (11 - 10) = 4.5 < 5` at the first check, so
exactly one attempt happens and the retries-exhausted connection error is
raised. Second boundary: all attempts 429, budget `12 - (11 - 10) = 11 ≥ 5`
at the first check but `12 - (18 - 10) = 4 < 5` at the second, so exactly
two attempts happen before the same error. -/
theorem call_with_retry_deadline_budget_witness :
    ((11 / 2 : ℚ) - ((RetryEnv.mk (fun _ => .status 429) (fun _ => 11)
        (fun _ => 0)).check_time 1 - 10) < 5)
    ∧ (call_with_retry ⟨fun _ => .status 429, fun _ => 11, fun _ => 0⟩ (some (11 / 2)) 10
        "p" "m" "b").attempts = 1
    ∧ (call_with_retry ⟨fun _ => .status 429, fun _ => 11, fun _ => 0⟩ (some (11 / 2)) 10
        "p" "m" "b").result = .error (.conn .retriesExhausted "p" "b")
    ∧ ¬((12 : ℚ) - ((RetryEnv.mk (fun _ => .status 429)
        (fun k => if k = 2 then 18 else 11) (fun _ => 0)).check_time 1 - 10) < 5)
    ∧ ((12 : ℚ) - ((RetryEnv.mk (fun _ => .status 429)
        (fun k => if k = 2 then 18 else 11) (fun _ => 0)).check_time 2 - 10) < 5)
    ∧ (call_with_retry ⟨fun _ => .status 429, fun k => if k = 2 then 18 else 11,
        fun _ => 0⟩ (some 12) 10 "p" "m" "b").attempts = 2
    ∧ (call_with_retry ⟨fun _ => .status 429, fun k => if k = 2 then 18 else 11,
        fun _ => 0⟩ (some 12) 10 "p" "m" "b").result
        = .error (.conn .retriesExhausted "p" "b") := by
  have hA := (call_with_retry_deadline_budget
    ⟨fun _ => .status 429, fun _ => 11, fun _ => 0⟩
    (11 / 2) 10 "p" "m" "b").2.1 (Or.inl rfl) (by norm_num)
  have hB := (call_with_retry_deadline_budget
    ⟨fun _ => .status 429, fun k => if k = 2 then 18 else 11, fun _ => 0⟩
    12 10 "p" "m" "b").2.2 (Or.inl rfl) (by norm_num) (Or.inl rfl) (by norm_num)
  exact ⟨by norm_num, hA.1, hA.2, by norm_num, by norm_num, hB.1, hB.2⟩

/-! ## C4 / C5: JSON contract enforcement -/

lemma ensureSchema_no_retry (env : JsonEnv) (provider model : String)
    (messages : List Message) (json_schema : Option JsonSchema) (raw : String)
    (parsed : JValue) (calls : List (List Message))
    (h : schemaRetryNeeded json_schema parsed = false) :
    ensureSchema env provider model messages json_schema raw parsed calls
      = (.ok raw, calls) := by
  cases json_schema with
  | none => cases parsed <;> rfl
  | some sch =>
    cases parsed with
    | obj fields =>
      simp only [schemaRetryNeeded] at h
      simp only [ensureSchema, h]
      simp
    | null => rfl
    | bool b => rfl
    | num q => rfl
    | str s => rfl
    | arr l => rfl

/-- C4: for a `response_format=json` call whose first response fails JSON
parsing, `_ensure_json` issues exactly one repair call replaying the
conversation with the prior assistant output plus the corrective
instruction; if the repair response parses (and the schema check, when
applicable, passes) the repair raw text is returned byte-for-byte, and if it
still fails to parse, `OutputParseError{reason="json_invalid"}` is raised
with `raw_output` truncated to the first 500 characters. -/
theorem ensure_json_invalid_repair (env : JsonEnv) (provider model : String)
    (messages : List Message) (json_schema : Option JsonSchema) (raw : String)
    (hraw : env.parse raw = none) :
    (∀ r2 v2,
      env.repair (messages ++ [⟨"assistant", raw⟩, ⟨"user", jsonFixPrompt⟩]) = .ok r2 →
      env.parse r2 = some v2 →
      schemaRetryNeeded json_schema v2 = false →
      ensure_json env provider model messages json_schema raw =
        (.ok r2, [messages ++ [⟨"assistant", raw⟩, ⟨"user", jsonFixPrompt⟩]]))
    ∧ (∀ r2,
      env.repair (messages ++ [⟨"assistant", raw⟩, ⟨"user", jsonFixPrompt⟩]) = .ok r2 →
      env.parse r2 = none →
      ensure_json env provider model messages json_schema raw =
        (.error (.parseFailed "json_invalid" provider model (r2.take 500)),
         [messages ++ [⟨"assistant", raw⟩, ⟨"user", jsonFixPrompt⟩]])) := by
  constructor
  · intro r2 v2 hrep hp2 hneed
    simp only [ensure_json, hraw, hrep, hp2]
    exact ensureSchema_no_retry env provider model messages json_schema r2 v2 _ hneed
  · intro r2 hrep hp2
    simp only [ensure_json, hraw, hrep, hp2]

/-- C4 witness: first response unparseable, repair response parses with the
schema check passing (no schema), so the repair text is returned verbatim
after exactly one repair call. -/
theorem ensure_json_invalid_repair_witness :
    (JsonEnv.mk (fun s => if s = "OK" then some (.obj []) else none)
        (fun _ => .ok "OK")).parse "bad" = none
    ∧ ensure_json ⟨fun s => if s = "OK" then some (.obj []) else none,
        fun _ => .ok "OK"⟩ "p" "m" [⟨"user", "q"⟩] none "bad" =
      (.ok "OK", [[⟨"user", "q"⟩, ⟨"assistant", "bad"⟩, ⟨"user", jsonFixPrompt⟩]]) :=
  ⟨rfl,
    (ensure_json_invalid_repair ⟨fun s => if s = "OK" then some (.obj []) else none,
        fun _ => .ok "OK"⟩ "p" "m" [⟨"user", "q"⟩] none "bad" rfl).1
      "OK" (.obj []) rfl rfl rfl⟩

/-- C5 counterexample: with schema `required=["a","b"]` and first parsed
response `{"a": 1}`, the missing-field set is `["b"]`, but the single repair
request's corrective instruction interpolates `sorted(expected)` — the full
expected set `['a', 'b']` — not the missing fields `['b']`; the two messages
differ, refuting "naming the missing fields sorted". -/
theorem ensure_json_schema_message_cex :
    (expectedFields ⟨["a", "b"], []⟩).filter
        (fun k => !(keyList [("a", JValue.num 1)]).contains k) = ["b"]
    ∧ (ensure_json ⟨fun s => if s = "\x7b\"a\": 1\x7d" then some (.obj [("a", .num 1)]) else none,
        fun _ => .ok "r"⟩ "p" "m" [⟨"user", "q"⟩] (some ⟨["a", "b"], []⟩) "\x7b\"a\": 1\x7d").2
      = [[⟨"user", "q"⟩, ⟨"assistant", "\x7b\"a\": 1\x7d"⟩,
          ⟨"user", schemaFixPrompt ["a", "b"]⟩]]
    ∧ schemaFixPrompt ["a", "b"] ≠ schemaFixPrompt ["b"] := by
  refine ⟨by decide, by decide, by decide⟩

/-- C5 amended: when the first parsed response is a JSON object missing some
expected field (explicit `required` list, or else the declared property
names), `_ensure_json` issues exactly one repair call whose corrective
instruction names the full expected field set, sorted and deduplicated (a
superset of the missing fields); if the repair response parses as a JSON
object containing all expected fields it is returned verbatim, and otherwise
`OutputParseError{reason="schema_mismatch"}` is raised with `raw_output`
truncated to 500 characters. -/
theorem ensure_json_schema_repair (env : JsonEnv) (provider model : String)
    (messages : List Message) (sch : JsonSchema) (raw : String)
    (fields : List (String × JValue))
    (hp : env.parse raw = some (.obj fields))
    (hne : (expectedFields sch).isEmpty = false)
    (hmiss : subsetB (expectedFields sch) (keyList fields) = false) :
    (∀ r2 f2,
      env.repair (messages ++ [⟨"assistant", raw⟩,
        ⟨"user", schemaFixPrompt (sortStrings (dedupStrings (expectedFields sch)))⟩]) = .ok r2 →
      env.parse r2 = some (.obj f2) →
      subsetB (expectedFields sch) (keyList f2) = true →
      ensure_json env provider model messages (some sch) raw =
        (.ok r2, [messages ++ [⟨"assistant", raw⟩,
          ⟨"user", schemaFixPrompt (sortStrings (dedupStrings (expectedFields sch)))⟩]]))
    ∧ (∀ r2 f2,
      env.repair (messages ++ [⟨"assistant", raw⟩,
        ⟨"user", schemaFixPrompt (sortStrings (dedupStrings (expectedFields sch)))⟩]) = .ok r2 →
      env.parse r2 = some (.obj f2) →
      subsetB (expectedFields sch) (keyList f2) = false →
      ensure_json env provider model messages (some sch) raw =
        (.error (.parseFailed "schema_mismatch" provider model (r2.take 500)),
         [messages ++ [⟨"assistant", raw⟩,
          ⟨"user", schemaFixPrompt (sortStrings (dedupStrings (expectedFields sch)))⟩]]))
    ∧ (∀ r2,
      env.repair (messages ++ [⟨"assistant", raw⟩,
        ⟨"user", schemaFixPrompt (sortStrings (dedupStrings (expectedFields sch)))⟩]) = .ok r2 →
      env.parse r2 = none →
      ensure_json env provider model messages (some sch) raw =
        (.error (.parseFailed "schema_mismatch" provider model (r2.take 500)),
         [messages ++ [⟨"assistant", raw⟩,
          ⟨"user", schemaFixPrompt (sortStrings (dedupStrings (expectedFields sch)))⟩]]))
    ∧ (∀ r2 v2,
      env.repair (messages ++ [⟨"assistant", raw⟩,
        ⟨"user", schemaFixPrompt (sortStrings (dedupStrings (expectedFields sch)))⟩]) = .ok r2 →
      env.parse r2 = some v2 → (∀ f2, v2 ≠ JValue.obj f2) →
      ensure_json env provider model messages (some sch) raw =
        (.error (.parseFailed "schema_mismatch" provider model (r2.take 500)),
         [messages ++ [⟨"assistant", raw⟩,
          ⟨"user", schemaFixPrompt (sortStrings (dedupStrings (expectedFields sch)))⟩]])) := by
  refine ⟨?_, ?_, ?_, ?_⟩
  · intro r2 f2 hrep hp2 hsub
    simp [ensure_json, hp, ensureSchema, hne, hmiss, hrep, hp2, hsub]
  · intro r2 f2 hrep hp2 hsub
    simp [ensure_json, hp, ensureSchema, hne, hmiss, hrep, hp2, hsub]
  · intro r2 hrep hp2
    simp [ensure_json, hp, ensureSchema, hne, hmiss, hrep, hp2]
  · intro r2 v2 hrep hp2 hno
    cases v2 with
    | obj f2 => exact absurd rfl (hno f2)
    | null =>
      simp [ensure_json, hp, ensureSchema, hne, hmiss, hrep, hp2]
    | bool b =>
      simp [ensure_json, hp, ensureSchema, hne, hmiss, hrep, hp2]
    | num q =>
      simp [ensure_json, hp, ensureSchema, hne, hmiss, hrep, hp2]
    | str s =>
      simp [ensure_json, hp, ensureSchema, hne, hmiss, hrep, hp2]
    | arr l =>
      simp [ensure_json, hp, ensureSchema, hne, hmiss, hrep, hp2]

/-- C5 amended witness: schema `required=["a","b"]`, first response
`{"a": 1}` missing "b", repair response containing both keys is returned
verbatim after exactly one repair call. -/
theorem ensure_json_schema_repair_witness :
    (JsonEnv.mk
        (fun s => if s = "\x7b\"a\": 1\x7d" then some (.obj [("a", .num 1)])
          else if s = "GOOD" then some (.obj [("a", .null), ("b", .null)]) else none)
        (fun _ => .ok "GOOD")).parse "\x7b\"a\": 1\x7d" = some (.obj [("a", .num 1)])
    ∧ (expectedFields ⟨["a", "b"], []⟩).isEmpty = false
    ∧ subsetB (expectedFields ⟨["a", "b"], []⟩) (keyList [("a", JValue.num 1)]) = false
    ∧ ensure_json ⟨fun s => if s = "\x7b\"a\": 1\x7d" then some (.obj [("a", .num 1)])
          else if s = "GOOD" then some (.obj [("a", .null), ("b", .null)]) else none,
        fun _ => .ok "GOOD"⟩ "p" "m" [⟨"user", "q"⟩] (some ⟨["a", "b"], []⟩)
        "\x7b\"a\": 1\x7d" =
      (.ok "GOOD", [[⟨"user", "q"⟩, ⟨"assistant", "\x7b\"a\": 1\x7d"⟩,
        ⟨"user", schemaFixPrompt (sortStrings (dedupStrings (expectedFields ⟨["a", "b"], []⟩)))⟩]]) :=
  ⟨rfl, rfl, rfl,
    (ensure_json_schema_repair
      ⟨fun s => if s = "\x7b\"a\": 1\x7d" then some (.obj [("a", .num 1)])
          else if s = "GOOD" then some (.obj [("a", .null), ("b", .null)]) else none,
        fun _ => .ok "GOOD"⟩ "p" "m" [⟨"user", "q"⟩] ⟨["a", "b"], []⟩
      "\x7b\"a\": 1\x7d" [("a", JValue.num 1)] rfl rfl rfl).1 "GOOD"
      [("a", JValue.null), ("b", JValue.null)] rfl rfl rfl⟩

/-! ## C8: query filter construction -/

/-- C8: the server-side filter built by `query`: when `doc_ids` is present
the filter carries `{"doc_id": {"$in": doc_ids}}` and the single `doc_id`
argument is ignored; `doc_id` alone yields an equality filter; `extra_where`
keys outside the whitelist {file_type, filename, section} are silently
dropped; and with no filter component present, `None` is passed. -/
theorem query_where_filter_rules :
    (∀ (di di2 : Option Int) (ns : List Int) (ex : List (String × String)),
      query_where di (some ns) ex = query_where di2 (some ns) ex)
    ∧ (∀ (di : Option Int) (ns : List Int) (ex : List (String × String)),
      ∃ w, query_where di (some ns) ex = some w
        ∧ ("doc_id", WhereVal.inList ns) ∈ w
        ∧ ∀ n : Int, ("doc_id", WhereVal.eqInt n) ∉ w)
    ∧ (∀ (n : Int) (ex : List (String × String)),
      ∃ w, query_where (some n) none ex = some w
        ∧ ("doc_id", WhereVal.eqInt n) ∈ w)
    ∧ (∀ (di : Option Int) (ds : Option (List Int)) (ex : List (String × String))
        (w : List (String × WhereVal)) (k v : String),
      query_where di ds ex = some w → (k, WhereVal.extra v) ∈ w →
        k ∈ WHERE_WHITELIST ∧ (k, v) ∈ ex)
    ∧ (∀ ex : List (String × String),
      (∀ kv ∈ ex, kv.1 ∉ WHERE_WHITELIST) → query_where none none ex = none) := by
  refine ⟨?_, ?_, ?_, ?_, ?_⟩
  · intro di di2 ns ex
    cases di <;> cases di2 <;> rfl
  · intro di ns ex
    refine ⟨("doc_id", WhereVal.inList ns) :: ex.filterMap
        (fun kv => if WHERE_WHITELIST.contains kv.1
          then some (kv.1, WhereVal.extra kv.2) else none), ?_, ?_, ?_⟩
    · simp [query_where]
    · simp
    · intro n hmem
      rcases List.mem_cons.mp hmem with h | h
      · exact absurd (Prod.ext_iff.mp h).2 (by simp)
      · rcases List.mem_filterMap.mp h with ⟨⟨k0, v0⟩, _, hf⟩
        by_cases hw : WHERE_WHITELIST.contains k0 <;> simp [hw] at hf
  · intro n ex
    refine ⟨("doc_id", WhereVal.eqInt n) :: ex.filterMap
        (fun kv => if WHERE_WHITELIST.contains kv.1
          then some (kv.1, WhereVal.extra kv.2) else none), ?_, ?_⟩
    · simp [query_where]
    · simp
  · intro di ds ex w k v hq hmem
    have hin : (k, WhereVal.extra v) ∈ ex.filterMap
        (fun kv => if WHERE_WHITELIST.contains kv.1
          then some (kv.1, WhereVal.extra kv.2) else none) := by
      simp only [query_where] at hq
      split at hq
      · exact absurd hq (by simp)
      · rcases Option.some.inj hq with rfl
        cases ds with
        | some ns =>
          rcases List.mem_append.mp hmem with h | h
          · simp at h
          · exact h
        | none =>
          cases di with
          | some n2 =>
            rcases List.mem_append.mp hmem with h | h
            · simp at h
            · exact h
          | none => simpa using hmem
    rcases List.mem_filterMap.mp hin with ⟨⟨k0, v0⟩, hkv, hf⟩
    simp at hf
    obtain ⟨hk0, hk, hv⟩ := hf
    subst hk
    subst hv
    exact ⟨hk0, hkv⟩
  · intro ex hall
    have hf : ex.filterMap (fun kv => if WHERE_WHITELIST.contains kv.1
        then some (kv.1, WhereVal.extra kv.2) else none) = [] := by
      rw [List.filterMap_eq_nil_iff]
      intro kv hkv
      have h := hall kv hkv
      rw [if_neg (by simp_all)]
    simp only [query_where]
    rw [hf]
    rfl

/-- C8 witness: the spec's example `query(doc_id=5, doc_ids=[1,2,3])` plus a
dropped non-whitelisted key. -/
theorem query_where_filter_rules_witness :
    query_where (some 5) (some [1, 2, 3]) [] =
      some [("doc_id", WhereVal.inList [1, 2, 3])]
    ∧ (∀ kv ∈ [(("evil" : String), ("x" : String))], kv.1 ∉ WHERE_WHITELIST)
    ∧ query_where none none [("evil", "x")] = none := by
  refine ⟨by decide, by decide, ?_⟩
  exact query_where_filter_rules.2.2.2.2 [("evil", "x")] (by decide)

/-! ## C9: client cache -/

/-- C9: for every fingerprint (provider, base_url, credential),
`_get_or_create_openai_client` returns the cached handle when the entry is
younger than 600 seconds; on a miss or a stale entry it constructs a new
handle and stores it under the fingerprint key, overwriting the stale entry
and leaving other keys untouched; and the cache key depends on the
credential only through its one-way hash (never the raw credential). -/
theorem get_or_create_client_cache (h : String → String) (cache : ClientCache)
    (provider base_url api_key : String) (now : ℚ) :
    (∀ cl t, cache (cache_key h provider base_url api_key) = some (cl, t) →
      now - t < CLIENT_TTL →
      get_or_create_openai_client h cache provider base_url api_key now = (cl, cache))
    ∧ (cache (cache_key h provider base_url api_key) = none →
      (get_or_create_openai_client h cache provider base_url api_key now).1
          = ⟨base_url, api_key⟩
      ∧ (get_or_create_openai_client h cache provider base_url api_key now).2
          (cache_key h provider base_url api_key) = some (⟨base_url, api_key⟩, now)
      ∧ ∀ k, k ≠ cache_key h provider base_url api_key →
          (get_or_create_openai_client h cache provider base_url api_key now).2 k
            = cache k)
    ∧ (∀ cl t, cache (cache_key h provider base_url api_key) = some (cl, t) →
      ¬(now - t < CLIENT_TTL) →
      (get_or_create_openai_client h cache provider base_url api_key now).1
          = ⟨base_url, api_key⟩
      ∧ (get_or_create_openai_client h cache provider base_url api_key now).2
          (cache_key h provider base_url api_key) = some (⟨base_url, api_key⟩, now)
      ∧ ∀ k, k ≠ cache_key h provider base_url api_key →
          (get_or_create_openai_client h cache provider base_url api_key now).2 k
            = cache k)
    ∧ (∀ api_key2, h api_key = h api_key2 →
      cache_key h provider base_url api_key = cache_key h provider base_url api_key2) := by
  refine ⟨?_, ?_, ?_, ?_⟩
  · intro cl t hc hfresh
    simp [get_or_create_openai_client, hc, hfresh]
  · intro hc
    refine ⟨?_, ?_, ?_⟩
    · simp [get_or_create_openai_client, hc]
    · simp [get_or_create_openai_client, hc]
    · intro k hk
      simp [get_or_create_openai_client, hc, hk]
  · intro cl t hc hstale
    refine ⟨?_, ?_, ?_⟩
    · simp [get_or_create_openai_client, hc, hstale]
    · simp [get_or_create_openai_client, hc, hstale]
    · intro k hk
      simp [get_or_create_openai_client, hc, hstale, hk]
  · intro api_key2 hh
    simp [cache_key, hh]

/-- C9 witness: a stale entry (age exactly 600) is overwritten by a fresh
handle, and two credentials with equal hashes share a cache key. -/
theorem get_or_create_client_cache_witness :
    ((fun _ : String => (none : Option (OpenAIClient × ℚ)))
        (cache_key (fun _ => "feedbeef") "deepseek" "https://x/v1" "sk-1") = none)
    ∧ (get_or_create_openai_client (fun _ => "feedbeef")
        (fun _ => none) "deepseek" "https://x/v1" "sk-1" 7).1 = ⟨"https://x/v1", "sk-1"⟩
    ∧ (get_or_create_openai_client (fun _ => "feedbeef")
        (fun _ => none) "deepseek" "https://x/v1" "sk-1" 7).2
        (cache_key (fun _ => "feedbeef") "deepseek" "https://x/v1" "sk-1")
        = some (⟨"https://x/v1", "sk-1"⟩, 7) :=
  ⟨rfl,
    ((get_or_create_client_cache (fun _ => "feedbeef") (fun _ => none)
      "deepseek" "https://x/v1" "sk-1" 7).2.1 rfl).1,
    ((get_or_create_client_cache (fun _ => "feedbeef") (fun _ => none)
      "deepseek" "https://x/v1" "sk-1" 7).2.1 rfl).2.1⟩

end DocFusioner
